import Mathlib

/-!
Verification development for the NutriVision pipeline (src/app.py).

The Python source is shallowly embedded: each helper of app.py is
translated into an executable Lean definition over `String` / `List Char`,
and the claims of the specification are settled as theorems about these
definitions.  Machine-level details that Python leaves to libraries
(regular-expression search, `html.escape`, `str.replace`, `str.split`,
`urllib.parse.quote`, SQLite `ORDER BY`) are spelled out as small
recursive functions, faithful to the ASCII fragment that the nutrition
texts live in.
-/

/-! ### Character classes (ASCII fragment of Python's `\d`, `\s`, `\w`) -/

/-- Python regex `\d` restricted to ASCII: decimal digits. -/
def isDigitC (c : Char) : Bool := '0' ≤ c && c ≤ '9'

/-- Python regex `\s` restricted to ASCII: space, tab, newline, carriage
return, vertical tab, form feed. -/
def isSpaceC (c : Char) : Bool :=
  c == ' ' || c == '\t' || c == '\n' || c == '\r' || c == '\x0b' || c == '\x0c'

/-- Python regex `\w` restricted to ASCII: letters, digits, underscore. -/
def isWordC (c : Char) : Bool := c.isAlpha || isDigitC c || c == '_'

/-- The character class `[:\s]` used by the macro label patterns. -/
def isSepC (c : Char) : Bool := c == ':' || isSpaceC c

/-- Value of a run of decimal digits, as Python's `int` computes it. -/
def digitsToNat (l : List Char) : Nat :=
  l.foldl (fun a c => 10 * a + (c.toNat - 48)) 0

/-- Case-insensitive literal prefix test: does `s` start with the (already
lower-case) pattern `p`?  Models matching a literal under `re.I`. -/
def ciStarts : List Char → List Char → Bool
  | [], _ => true
  | _ :: _, [] => false
  | p :: ps, c :: cs => (c.toLower == p) && ciStarts ps cs

/-! ### `extract_calories` (src/app.py lines 73-75)

`re.search(r'(\d+)\s*kcal', text, re.I)`.  At a fixed position the pattern
is matched by taking the maximal digit run, then the maximal whitespace
run, then the literal `kcal` case-insensitively.  This possessive reading
agrees with backtracking regex semantics: giving back a digit would force
`\s` or `k` to match a digit, and giving back a whitespace character would
force `k` to match whitespace, both impossible. -/

/-- Try to match `(\d+)\s*kcal` at the start of `s`; return the captured
integer on success. -/
def matchKcalAt (s : List Char) : Option Nat :=
  let ds := s.takeWhile isDigitC
  if ds.isEmpty then none
  else
    let rest := (s.drop ds.length).dropWhile isSpaceC
    if ciStarts "kcal".data rest then some (digitsToNat ds) else none

/-- `re.search`: try the matcher at every position, left to right, and
return the first success.  (All patterns used here need at least one
character, so the final empty position never matches.) -/
def searchPat (m : List Char → Option Nat) : List Char → Option Nat
  | [] => none
  | c :: cs =>
    match m (c :: cs) with
    | some n => some n
    | none => searchPat m cs

/-- `extract_calories(text)`: first `(\d+)\s*kcal` match, else the silent
default `0`. -/
def extract_calories (s : String) : Nat :=
  (searchPat matchKcalAt s.data).getD 0

/-! ### `extract_macros` (src/app.py lines 77-83)

Three independent searches: `Protein[:\s]+(\d+)`, `Carb\w*[:\s]+(\d+)`,
`Fat\w*[:\s]+(\d+)`, all under `re.I`.  As for the calorie pattern, the
maximal-run reading of `\w*`, `[:\s]+` and `(\d+)` agrees with
backtracking semantics, because the character classes involved are
pairwise disjoint where it matters (`\w` never matches `:`/whitespace and
`[:\s]` never matches a digit). -/

/-- Match `<label>` (case-insensitively), then optionally `\w*`, then
`[:\s]+`, then a captured digit run, at the start of `s`. -/
def matchLabelAt (label : List Char) (wordSuffix : Bool) (s : List Char) : Option Nat :=
  if ciStarts label s then
    let r1 := s.drop label.length
    let r2 := if wordSuffix then r1.dropWhile isWordC else r1
    let seps := r2.takeWhile isSepC
    if seps.isEmpty then none
    else
      let ds := (r2.drop seps.length).takeWhile isDigitC
      if ds.isEmpty then none else some (digitsToNat ds)
  else none

/-- `re.search(r'Protein[:\s]+(\d+)', text, re.I)`. -/
def proteinSearch (s : String) : Option Nat :=
  searchPat (matchLabelAt "protein".data false) s.data

/-- `re.search(r'Carb\w*[:\s]+(\d+)', text, re.I)`. -/
def carbSearch (s : String) : Option Nat :=
  searchPat (matchLabelAt "carb".data true) s.data

/-- `re.search(r'Fat\w*[:\s]+(\d+)', text, re.I)`. -/
def fatSearch (s : String) : Option Nat :=
  searchPat (matchLabelAt "fat".data true) s.data

/-- `extract_macros(text)`: the `(int, int, int)` triple when all three
labelled fields match, otherwise `(None, None, None)`. -/
def extract_macros (s : String) : Option Nat × Option Nat × Option Nat :=
  match proteinSearch s, carbSearch s, fatSearch s with
  | some p, some c, some f => (some p, some c, some f)
  | _, _, _ => (none, none, none)

/-- The sample analysis text of the specification's scenario (§8). -/
def sampleText : String :=
  "Grilled Chicken Salad\nIngredients and Calories: ...\nTotal Calories: 350 kcal\nMacronutrient Profile:\nProtein: 30\nCarbs: 20\nFat: 10\nFiber: 5 grams"

/-! ### Pie chart guard (src/app.py lines 270-276)

`if all(v is not None for v in [p, c, f]) and (p + c + f) > 0:` decides
whether the macronutrient pie chart is drawn. -/

/-- Whether the Analyse-Food handler draws the pie chart for the given
`extract_macros` result. -/
def chart_built : Option Nat × Option Nat × Option Nat → Bool
  | (some p, some c, some f) => decide (0 < p + c + f)
  | _ => false

/-! ### `clean_text` and `generate_pdf` (src/app.py lines 86-130)

`clean_text` applies Python's `html.escape` (with its default
`quote=True`), then `.replace("**", "")`, then `.replace("*", "")`.
`html.escape` performs the five replacements `&`→`&amp;`, `<`→`&lt;`,
`>`→`&gt;`, `"`→`&quot;`, `'`→`&#x27;` in that order; since no later
target occurs in an earlier replacement string, this equals the
character-wise map below.  `str.replace` scans left to right replacing
non-overlapping occurrences, which for the patterns `**` and `*` is the
recursion below. -/

/-- `html.escape` on one character. -/
def escapeChar (c : Char) : List Char :=
  if c = '&' then "&amp;".data
  else if c = '<' then "&lt;".data
  else if c = '>' then "&gt;".data
  else if c = '"' then "&quot;".data
  else if c = '\'' then "&#x27;".data
  else [c]

/-- `html.escape(text)`. -/
def htmlEscapeList (l : List Char) : List Char := l.flatMap escapeChar

/-- `.replace("**", "")`: drop non-overlapping double stars, left to
right. -/
def stripDouble : List Char → List Char
  | [] => []
  | [c] => [c]
  | c1 :: c2 :: cs =>
    if c1 = '*' ∧ c2 = '*' then stripDouble cs
    else c1 :: stripDouble (c2 :: cs)

/-- `.replace("*", "")`: drop every star. -/
def stripSingle : List Char → List Char
  | [] => []
  | c :: cs => if c = '*' then stripSingle cs else c :: stripSingle cs

/-- `clean_text(text)`: escape, then strip `**`, then strip `*`. -/
def clean_text (s : String) : String :=
  ⟨stripSingle (stripDouble (htmlEscapeList s.data))⟩

/-- Python's `split("\n")`. -/
def splitLines : List Char → List (List Char)
  | [] => [[]]
  | c :: cs =>
    if c = '\n' then [] :: splitLines cs
    else
      match splitLines cs with
      | [] => [[c]]
      | l :: ls => (c :: l) :: ls

/-- `line.strip()` is truthy: the line has a non-whitespace character. -/
def notBlank (l : List Char) : Bool := l.any (fun c => !isSpaceC c)

/-- The lines of `clean_text(text)` that `generate_pdf` turns into body
paragraphs: `for line in clean_text(text).split("\n"): if line.strip():`. -/
def pdf_lines (s : String) : List (List Char) :=
  (splitLines (clean_text s).data).filter notBlank

/-- An element of the reportlab `story` list: a styled paragraph or a
spacer. -/
inductive PdfElem where
  | para (style : String) (text : String)
  | spacer (w h : Nat)
deriving DecidableEq

/-- Body paragraphs use the custom `NormalText` style. -/
def isBodyPara : PdfElem → Bool
  | .para st _ => st == "NormalText"
  | _ => false

/-- Title line of the report. -/
def pdfTitle : String := "NutriVision – Nutrition Report"

/-- Fixed footer line of the report. -/
def pdfFooter : String := "Generated using NutriVision App"

/-- The `story` list that `generate_pdf(text)` builds and lays out, with
the generation timestamp passed in (the source calls `datetime.now()`). -/
def generate_pdf_story (ts : String) (text : String) : List PdfElem :=
  ([PdfElem.para "Title" pdfTitle, PdfElem.spacer 1 10,
    PdfElem.para "Normal" ("Generated on: " ++ ts), PdfElem.spacer 1 14]
   ++ (pdf_lines text).flatMap (fun l => [PdfElem.para "NormalText" ⟨l⟩, PdfElem.spacer 1 6])
   ++ [PdfElem.spacer 1 20, PdfElem.para "Italic" pdfFooter])

/-! ### Timestamps (src/app.py lines 260 and 325)

Records are stamped with `datetime.now().strftime("%d-%m-%Y %H:%M")` and
the history view sorts on that TEXT column with `ORDER BY date DESC`,
i.e. by byte-wise string comparison (SQLite's BINARY collation; on the
ASCII timestamps this is code-point lexicographic order). -/

/-- A calendar date-time at minute precision. -/
structure DateTime where
  year : Nat
  month : Nat
  day : Nat
  hour : Nat
  minute : Nat
deriving DecidableEq

/-- `%d`, `%m`, `%H`, `%M`: zero-padded to two digits. -/
def pad2 (n : Nat) : String := if n < 10 then "0" ++ toString n else toString n

/-- `%Y`: zero-padded to four digits. -/
def pad4 (n : Nat) : String :=
  if n < 10 then "000" ++ toString n
  else if n < 100 then "00" ++ toString n
  else if n < 1000 then "0" ++ toString n
  else toString n

/-- `strftime("%d-%m-%Y %H:%M")`. -/
def formatTimestamp (t : DateTime) : String :=
  pad2 t.day ++ "-" ++ pad2 t.month ++ "-" ++ pad4 t.year ++ " " ++
    pad2 t.hour ++ ":" ++ pad2 t.minute

/-- Chronological strict order on date-times: lexicographic on
(year, month, day, hour, minute). -/
def chronoLTb (a b : DateTime) : Bool :=
  if a.year < b.year then true
  else if b.year < a.year then false
  else if a.month < b.month then true
  else if b.month < a.month then false
  else if a.day < b.day then true
  else if b.day < a.day then false
  else if a.hour < b.hour then true
  else if b.hour < a.hour then false
  else a.minute < b.minute

/-- Byte-wise (code-point) lexicographic `≤` on strings, as SQLite's
BINARY collation compares ASCII TEXT values. -/
def lexLe : List Char → List Char → Bool
  | [], _ => true
  | _ :: _, [] => false
  | a :: as, b :: bs =>
    if a.toNat < b.toNat then true
    else if b.toNat < a.toNat then false
    else lexLe as bs

/-- Byte-wise lexicographic `<` on strings. -/
def lexLt : List Char → List Char → Bool
  | _, [] => false
  | [], _ :: _ => true
  | a :: as, b :: bs =>
    if a.toNat < b.toNat then true
    else if b.toNat < a.toNat then false
    else lexLt as bs

/-! ### The `history` table (src/app.py lines 52-61, 254-265, 320-328) -/

/-- One row of the `history` table. -/
structure Row where
  rid : Nat
  username : String
  date : String
  meal : String
  calories : Nat
  details : String
deriving DecidableEq

/-- `INSERT INTO history(username,date,meal,calories,details)`: the table
grows by one row; `id` is the AUTOINCREMENT key (modelled by the current
table size, which is monotonically increasing). -/
def appendRow (store : List Row) (username date meal : String) (calories : Nat)
    (details : String) : List Row :=
  store ++ [{ rid := store.length, username := username, date := date,
              meal := meal, calories := calories, details := details }]

/-- Sorting relation of `ORDER BY date DESC`: earlier rows have
byte-wise-greater-or-equal date strings. -/
def dateGe (a b : Row) : Prop := lexLe b.date.data a.date.data = true

instance : DecidableRel dateGe := fun a b => decEq (lexLe b.date.data a.date.data) true

/-- `SELECT ... FROM history WHERE username=? ORDER BY date DESC`: the
rows of the given owner, sorted by date string descending.  (The history
view then projects `date, meal, calories` for display.) -/
def query (store : List Row) (owner : String) : List Row :=
  List.insertionSort dateGe (store.filter (fun r => decide (r.username = owner)))

/-! ### `whatsapp_share` and the share message (src/app.py 136-137, 286-295) -/

/-- Fixed application URL embedded in the share message. -/
def APP_URL : String := "https://nutri-app.onrender.com"

/-- UTF-8 encoding of one character, as a list of byte values. -/
def utf8Bytes (c : Char) : List Nat :=
  let n := c.toNat
  if n < 128 then [n]
  else if n < 2048 then [192 + n / 64, 128 + n % 64]
  else if n < 65536 then [224 + n / 4096, 128 + n / 64 % 64, 128 + n % 64]
  else [240 + n / 262144, 128 + n / 4096 % 64, 128 + n / 64 % 64, 128 + n % 64]

/-- Bytes `urllib.parse.quote` leaves unencoded: its always-safe set
(ASCII letters, digits, `_.-~`) plus the default `safe='/'`. -/
def isSafeByte (b : Nat) : Bool :=
  (65 ≤ b && b ≤ 90) || (97 ≤ b && b ≤ 122) || (48 ≤ b && b ≤ 57) ||
    b == 95 || b == 46 || b == 45 || b == 126 || b == 47

/-- Upper-case hexadecimal digit, as `quote` emits. -/
def hexDigitChar (n : Nat) : Char :=
  if n < 10 then Char.ofNat (48 + n) else Char.ofNat (55 + n)

/-- Percent-encoding of one byte. -/
def quoteByte (b : Nat) : List Char :=
  if isSafeByte b then [Char.ofNat b] else ['%', hexDigitChar (b / 16), hexDigitChar (b % 16)]

/-- `urllib.parse.quote(text)`: UTF-8 encode, then percent-encode each
unsafe byte. -/
def urlquote (s : String) : String :=
  ⟨(s.data.flatMap utf8Bytes).flatMap quoteByte⟩

/-- `whatsapp_share(text)` (src/app.py line 136-137). -/
def whatsapp_share (text : String) : String :=
  "https://wa.me/?text=" ++ urlquote text

/-- The `share_text` f-string template of the Analyse-Food handler
(src/app.py lines 286-295). -/
def share_text (username result : String) : String :=
  "\nNutriVision – Nutrition Report\n\nUser: " ++ username ++ "\n\n" ++ result ++
    "\n\nDownload full PDF:\n" ++ APP_URL ++ "\n"

/-! ## Helper lemmas -/

/-- `re.search` semantics: if the matcher succeeds at position `j` and at
no earlier position, the scan returns that success. -/
lemma searchPat_first (m : List Char → Option Nat) (hnil : m [] = none) :
    ∀ (l : List Char) (j n : Nat), m (l.drop j) = some n →
      (∀ i, i < j → m (l.drop i) = none) → searchPat m l = some n := by
  intro l
  induction l with
  | nil =>
    intro j n hj _
    rw [List.drop_nil, hnil] at hj
    exact absurd hj (by simp)
  | cons c cs ih =>
    intro j n hj hmin
    cases j with
    | zero =>
      have hj' : m (c :: cs) = some n := hj
      simp [searchPat, hj']
    | succ j' =>
      have h0 : m (c :: cs) = none := hmin 0 (Nat.succ_pos j')
      have hj' : m (cs.drop j') = some n := hj
      simp only [searchPat, h0]
      exact ih j' n hj' (fun i hi => hmin (i + 1) (Nat.succ_lt_succ hi))

/-- `re.search` semantics: if the matcher fails at every position, the
scan fails.  (Positions past the end all look at the empty list.) -/
lemma searchPat_none (m : List Char → Option Nat) :
    ∀ l : List Char, (∀ i, i ≤ l.length → m (l.drop i) = none) →
      searchPat m l = none := by
  intro l
  induction l with
  | nil => intro _; rfl
  | cons c cs ih =>
    intro h
    have h0 : m (c :: cs) = none := h 0 (Nat.zero_le _)
    simp only [searchPat, h0]
    exact ih (fun i hi => h (i + 1) (Nat.succ_le_succ hi))

/-- The three components of `extract_macros` are all populated or all
absent, and they are populated exactly when all three label searches
succeed. -/
lemma extract_macros_cases (text : String) :
    (extract_macros text = (none, none, none) ∨
      ∃ p c f, extract_macros text = (some p, some c, some f)) ∧
    ((∃ p c f, extract_macros text = (some p, some c, some f)) ↔
      (proteinSearch text).isSome ∧ (carbSearch text).isSome ∧ (fatSearch text).isSome) := by
  rcases hp : proteinSearch text with _ | p <;>
    rcases hc : carbSearch text with _ | c <;>
    rcases hf : fatSearch text with _ | f <;>
    simp [extract_macros, hp, hc, hf]

/-! ## Claims -/

/-- Claim C1: for every input text, `extract_macros` returns a fully
populated (protein, carb, fat) triple if and only if all three labelled
integer fields (`Protein`, `Carb…`, `Fat…`) match somewhere in the text;
if any one is missing the result is the wholly-absent `(none, none,
none)` sentinel, never a partial profile.  Concretely: a text with only
Protein and Carbs is wholly absent, while the specification's sample
text yields `(30, 20, 10)`. -/
theorem extract_macros_all_or_nothing (text : String) :
    (extract_macros text = (none, none, none) ∨
      ∃ p c f, extract_macros text = (some p, some c, some f)) ∧
    ((∃ p c f, extract_macros text = (some p, some c, some f)) ↔
      (proteinSearch text).isSome ∧ (carbSearch text).isSome ∧ (fatSearch text).isSome) ∧
    extract_macros "Protein: 30\nCarbs: 20" = (none, none, none) ∧
    extract_macros sampleText = (some 30, some 20, some 10) := by
  refine ⟨(extract_macros_cases text).1, (extract_macros_cases text).2, by decide, by decide⟩

/-- Claim C2: `extract_calories` returns the integer captured by the
first (leftmost) case-insensitive occurrence of `(\d+)\s*kcal` — later
matches are ignored — and returns `0` when no position matches.  In
particular `extract_calories "Total Calories: 250 kcal" = 250`,
`extract_calories "no calorie info" = 0`, and the specification's sample
text yields `350`. -/
theorem extract_calories_first_match (s : String) (j n : Nat)
    (hj : matchKcalAt (s.data.drop j) = some n)
    (hmin : ∀ i, i < j → matchKcalAt (s.data.drop i) = none) :
    extract_calories s = n ∧
    (∀ t : String, (∀ i, i ≤ t.data.length → matchKcalAt (t.data.drop i) = none) →
      extract_calories t = 0) ∧
    extract_calories "Total Calories: 250 kcal" = 250 ∧
    extract_calories "no calorie info" = 0 ∧
    extract_calories sampleText = 350 := by
  refine ⟨?_, ?_, by decide, by decide, by decide⟩
  · unfold extract_calories
    rw [searchPat_first matchKcalAt rfl s.data j n hj hmin]
    rfl
  · intro t ht
    unfold extract_calories
    rw [searchPat_none matchKcalAt t.data ht]
    rfl

/-- Witness for C2 at a concrete input: in `"abc 12 kcal and 99 kcal"`
the first match starts at position 4 and wins over the later `99 kcal`
match. -/
theorem extract_calories_first_match_witness :
    extract_calories "abc 12 kcal and 99 kcal" = 12 :=
  (extract_calories_first_match "abc 12 kcal and 99 kcal" 4 12 (by decide)
    (by decide)).1

/-- Claim C10: the calorie pattern matches only an unbroken digit run
immediately before `kcal`, so on a decimal calorie value the extractor
returns the digits after the decimal point: `"250.5 kcal"` (alone, or
after a prefix containing no earlier match) yields `5`, not `250` and
not `0`. -/
theorem extract_calories_decimal_digits (s : String)
    (h : ∀ i, i < s.data.length + 4 →
      matchKcalAt ((s ++ "250.5 kcal").data.drop i) = none) :
    extract_calories (s ++ "250.5 kcal") = 5 ∧
    extract_calories "250.5 kcal" = 5 ∧
    extract_calories "Total Calories: 250.5 kcal" = 5 ∧
    (5 : Nat) ≠ 250 ∧ (5 : Nat) ≠ 0 := by
  refine ⟨?_, by decide, by decide, by decide, by decide⟩
  unfold extract_calories
  rw [searchPat_first matchKcalAt rfl _ (s.data.length + 4) 5 ?_ h]
  · rfl
  · have hdata : (s ++ "250.5 kcal").data = s.data ++ "250.5 kcal".data := by
      rcases s with ⟨l⟩; rfl
    rw [hdata, List.drop_append]
    decide

/-- Witness for C10 at a concrete input: `"abc 250.5 kcal"`. -/
theorem extract_calories_decimal_digits_witness :
    extract_calories ("abc " ++ "250.5 kcal") = 5 :=
  (extract_calories_decimal_digits "abc " (by decide)).1

/-- Claim C6: the pie chart is produced if and only if the macro profile
is fully populated and its sum is positive; an absent profile or a
zero-sum profile is silently skipped.  Concretely: the specification's
sample text produces a chart, an all-zero profile and a partial text do
not. -/
theorem chart_built_iff (m : Option Nat × Option Nat × Option Nat) :
    (chart_built m = true ↔ ∃ p c f, m = (some p, some c, some f) ∧ 0 < p + c + f) ∧
    chart_built (extract_macros sampleText) = true ∧
    chart_built (some 0, some 0, some 0) = false ∧
    chart_built (extract_macros "Protein: 12\nCarbs: 8") = false := by
  refine ⟨?_, by decide, by decide, by decide⟩
  obtain ⟨po, co, fo⟩ := m
  rcases po with _ | p <;> rcases co with _ | c <;> rcases fo with _ | f <;>
    simp [chart_built]
  constructor
  · intro h
    exact ⟨p, c, f, ⟨rfl, rfl, rfl⟩, h⟩
  · rintro ⟨p', c', f', ⟨h1, h2, h3⟩, h⟩
    subst h1; subst h2; subst h3
    exact h

/-- Byte-wise lexicographic `≤` is total. -/
lemma lexLe_total : ∀ x y : List Char, lexLe x y = true ∨ lexLe y x = true := by
  intro x
  induction x with
  | nil => intro y; left; rfl
  | cons a as ih =>
    intro y
    cases y with
    | nil => right; rfl
    | cons b bs =>
      by_cases h1 : a.toNat < b.toNat
      · left; simp [lexLe, h1]
      · by_cases h2 : b.toNat < a.toNat
        · right; simp [lexLe, h2]
        · cases ih bs with
          | inl h => left; simp [lexLe, h1, h2, h]
          | inr h => right; simp [lexLe, h1, h2, h]

/-- Byte-wise lexicographic `≤` is transitive. -/
lemma lexLe_trans : ∀ x y z : List Char,
    lexLe x y = true → lexLe y z = true → lexLe x z = true := by
  intro x
  induction x with
  | nil => intro y z _ _; rfl
  | cons a as ih =>
    intro y z hxy hyz
    cases y with
    | nil => simp [lexLe] at hxy
    | cons b bs =>
      cases z with
      | nil => simp [lexLe] at hyz
      | cons c cs =>
        by_cases hab : a.toNat < b.toNat
        · by_cases hbc : b.toNat < c.toNat
          · have hac : a.toNat < c.toNat := Nat.lt_trans hab hbc
            simp [lexLe, hac]
          · by_cases hcb : c.toNat < b.toNat
            · simp [lexLe, hbc, hcb] at hyz
            · have hac : a.toNat < c.toNat := by omega
              simp [lexLe, hac]
        · by_cases hba : b.toNat < a.toNat
          · simp [lexLe, hab, hba] at hxy
          · have hxy' : lexLe as bs = true := by simpa [lexLe, hab, hba] using hxy
            by_cases hbc : b.toNat < c.toNat
            · have hac : a.toNat < c.toNat := by omega
              simp [lexLe, hac]
            · by_cases hcb : c.toNat < b.toNat
              · simp [lexLe, hbc, hcb] at hyz
              · have hyz' : lexLe bs cs = true := by simpa [lexLe, hbc, hcb] using hyz
                have hac1 : ¬ a.toNat < c.toNat := by omega
                have hac2 : ¬ c.toNat < a.toNat := by omega
                simp [lexLe, hac1, hac2, ih bs cs hxy' hyz']

instance : IsTotal Row dateGe :=
  ⟨fun a b => lexLe_total b.date.data a.date.data⟩

instance : IsTrans Row dateGe :=
  ⟨fun a b c hab hbc => lexLe_trans c.date.data b.date.data a.date.data hbc hab⟩

/-- Claim C3 (code bug): the stored timestamp format `%d-%m-%Y %H:%M`
does NOT sort chronologically under string comparison.  2 January 2024
is chronologically before 1 February 2024, yet its formatted string
`"02-01-2024 00:00"` is byte-wise lexicographically greater than
`"01-02-2024 00:00"`, so `ORDER BY date DESC` puts the older record
first. -/
theorem timestamp_format_breaks_lex_order :
    chronoLTb ⟨2024, 1, 2, 0, 0⟩ ⟨2024, 2, 1, 0, 0⟩ = true ∧
    formatTimestamp ⟨2024, 1, 2, 0, 0⟩ = "02-01-2024 00:00" ∧
    formatTimestamp ⟨2024, 2, 1, 0, 0⟩ = "01-02-2024 00:00" ∧
    lexLt (formatTimestamp ⟨2024, 1, 2, 0, 0⟩).data
        (formatTimestamp ⟨2024, 2, 1, 0, 0⟩).data = false ∧
    lexLt (formatTimestamp ⟨2024, 2, 1, 0, 0⟩).data
        (formatTimestamp ⟨2024, 1, 2, 0, 0⟩).data = true := by
  decide

/-- Claim C4 (as amended): `query(owner)` returns exactly the rows whose
`username` equals `owner` — every returned row belongs to `owner`, every
stored row of `owner` is returned, and an owner with no rows gets the
empty list, not an error — and the result is ordered by the stored date
STRING, byte-wise lexicographically descending. -/
theorem history_query_spec (store : List Row) (owner : String) :
    (∀ r ∈ query store owner, r.username = owner) ∧
    ((∀ r ∈ store, r.username ≠ owner) → query store owner = []) ∧
    List.Sorted dateGe (query store owner) ∧
    (∀ r ∈ store, r.username = owner → r ∈ query store owner) := by
  refine ⟨?_, ?_, ?_, ?_⟩
  · intro r hr
    rw [query, (List.perm_insertionSort dateGe _).mem_iff] at hr
    exact of_decide_eq_true (List.mem_filter.mp hr).2
  · intro h
    rw [query, List.filter_eq_nil_iff.mpr (fun a ha => by simpa using h a ha)]
    rfl
  · exact List.sorted_insertionSort dateGe _
  · intro r hr heq
    rw [query, (List.perm_insertionSort dateGe _).mem_iff]
    exact List.mem_filter.mpr ⟨hr, decide_eq_true heq⟩

/-- Witness for C4's amended claim at a concrete store: an owner with no
rows gets the empty list. -/
theorem history_query_spec_witness :
    query [⟨0, "alice", "01-01-2024 00:00", "Meal", 1, "d"⟩] "bob" = [] :=
  (history_query_spec [⟨0, "alice", "01-01-2024 00:00", "Meal", 1, "d"⟩] "bob").2.1
    (by decide)

/-- Counterexample to C4 as stated: with two records of `"alice"` whose
date strings come from the code's own `%d-%m-%Y %H:%M` formatting of
2 January 2024 and 1 February 2024, the query returns the chronologically
EARLIER record first, because `ORDER BY date DESC` compares the
day-first strings. -/
theorem query_not_chronologically_sorted :
    chronoLTb ⟨2024, 1, 2, 0, 0⟩ ⟨2024, 2, 1, 0, 0⟩ = true ∧
    query [⟨0, "alice", formatTimestamp ⟨2024, 1, 2, 0, 0⟩, "Meal A", 100, "A"⟩,
           ⟨1, "alice", formatTimestamp ⟨2024, 2, 1, 0, 0⟩, "Meal B", 200, "B"⟩] "alice"
      = [⟨0, "alice", formatTimestamp ⟨2024, 1, 2, 0, 0⟩, "Meal A", 100, "A"⟩,
         ⟨1, "alice", formatTimestamp ⟨2024, 2, 1, 0, 0⟩, "Meal B", 200, "B"⟩] := by
  decide

/-- Claim C5: round-trip through the store.  After `append`, querying the
record's owner returns a sequence containing a record that agrees with
the inserted one in timestamp, title, calories and raw text. -/
theorem append_query_roundtrip (store : List Row) (u d m : String) (c : Nat)
    (dt : String) :
    ∃ r ∈ query (appendRow store u d m c dt) u,
      r.date = d ∧ r.meal = m ∧ r.calories = c ∧ r.details = dt := by
  refine ⟨⟨store.length, u, d, m, c, dt⟩, ?_, rfl, rfl, rfl, rfl⟩
  rw [query, (List.perm_insertionSort dateGe _).mem_iff]
  refine List.mem_filter.mpr ⟨?_, decide_eq_true rfl⟩
  exact List.mem_append.mpr (Or.inr (List.mem_singleton.mpr rfl))

/-- Stripping double stars only removes characters. -/
lemma stripDouble_sub : ∀ l : List Char, ∀ x ∈ stripDouble l, x ∈ l := by
  intro l
  induction l using stripDouble.induct with
  | case1 => simp [stripDouble]
  | case2 c => simp [stripDouble]
  | case3 c1 c2 cs h ih =>
    intro x hx
    rw [stripDouble, if_pos h] at hx
    exact List.mem_cons_of_mem _ (List.mem_cons_of_mem _ (ih x hx))
  | case4 c1 c2 cs h ih =>
    intro x hx
    rw [stripDouble, if_neg h] at hx
    rcases List.mem_cons.mp hx with h1 | h1
    · exact h1 ▸ List.mem_cons_self _ _
    · exact List.mem_cons_of_mem _ (ih x h1)

/-- Stripping single stars only removes characters. -/
lemma stripSingle_sub : ∀ l : List Char, ∀ x ∈ stripSingle l, x ∈ l := by
  intro l
  induction l with
  | nil => simp [stripSingle]
  | cons c cs ih =>
    intro x hx
    rw [stripSingle] at hx
    by_cases h : c = '*'
    · rw [if_pos h] at hx
      exact List.mem_cons_of_mem _ (ih x hx)
    · rw [if_neg h] at hx
      rcases List.mem_cons.mp hx with h1 | h1
      · exact h1 ▸ List.mem_cons_self _ _
      · exact List.mem_cons_of_mem _ (ih x h1)

/-- After the final `.replace("*", "")` no star remains. -/
lemma stripSingle_no_star : ∀ l : List Char, '*' ∉ stripSingle l := by
  intro l
  induction l with
  | nil => simp [stripSingle]
  | cons c cs ih =>
    rw [stripSingle]
    by_cases h : c = '*'
    · rw [if_pos h]; exact ih
    · rw [if_neg h]
      intro hx
      rcases List.mem_cons.mp hx with h1 | h1
      · exact h (h1.symm)
      · exact ih h1

/-- `html.escape` never emits a raw `<`. -/
lemma escapeChar_no_lt (c : Char) : '<' ∉ escapeChar c := by
  unfold escapeChar
  split_ifs with h1 h2 h3 h4 h5
  · decide
  · decide
  · decide
  · decide
  · decide
  · intro hm
    rw [List.mem_singleton] at hm
    exact h2 hm.symm

/-- `html.escape` never emits a raw `>`. -/
lemma escapeChar_no_gt (c : Char) : '>' ∉ escapeChar c := by
  unfold escapeChar
  split_ifs with h1 h2 h3 h4 h5
  · decide
  · decide
  · decide
  · decide
  · decide
  · intro hm
    rw [List.mem_singleton] at hm
    exact h3 hm.symm

/-- Claim C7: `clean_text` escapes markup before stripping emphasis
markers — the cleaned text never contains a raw `<` or `>` (markup was
escaped) nor a `*` (markers were stripped) — and the PDF body renders
one paragraph per non-blank line, skipping blank lines.  On the
specification's example the angle-bracket markup is escaped and the
blank line is skipped. -/
theorem clean_text_render_spec (text : String) :
    ('<' ∉ (clean_text text).data ∧ '>' ∉ (clean_text text).data ∧
      '*' ∉ (clean_text text).data) ∧
    (∀ l ∈ pdf_lines text, notBlank l = true) ∧
    clean_text "<b>100</b> kcal\n\nGood" = "&lt;b&gt;100&lt;/b&gt; kcal\n\nGood" ∧
    pdf_lines "<b>100</b> kcal\n\nGood" = ["&lt;b&gt;100&lt;/b&gt; kcal".data, "Good".data] := by
  refine ⟨⟨?_, ?_, stripSingle_no_star _⟩, ?_, by decide, by decide⟩
  · intro hx
    have h1 := stripDouble_sub _ _ (stripSingle_sub _ _ hx)
    obtain ⟨c, _, hm⟩ := List.mem_flatMap.mp h1
    exact escapeChar_no_lt c hm
  · intro hx
    have h1 := stripDouble_sub _ _ (stripSingle_sub _ _ hx)
    obtain ⟨c, _, hm⟩ := List.mem_flatMap.mp h1
    exact escapeChar_no_gt c hm
  · intro l hl
    exact (List.mem_filter.mp hl).2

/-- Claim C8: on the empty input the generated document is non-empty and
consists of exactly the title line, the generation-timestamp line and
the fixed footer line (plus spacers), with zero body paragraphs. -/
theorem generate_pdf_empty_doc (ts : String) :
    generate_pdf_story ts "" =
      [PdfElem.para "Title" pdfTitle, PdfElem.spacer 1 10,
       PdfElem.para "Normal" ("Generated on: " ++ ts), PdfElem.spacer 1 14,
       PdfElem.spacer 1 20, PdfElem.para "Italic" pdfFooter] ∧
    generate_pdf_story ts "" ≠ [] ∧
    (generate_pdf_story ts "").countP isBodyPara = 0 := by
  refine ⟨rfl, ?_, rfl⟩
  intro h
  have h1 : (generate_pdf_story ts "").length = 6 := rfl
  rw [h] at h1
  exact absurd h1 (by decide)

/-- A flat map whose pieces are all non-empty does not shrink the list. -/
lemma length_le_flatMap {α β : Type} (f : α → List β) (hf : ∀ a, f a ≠ []) :
    ∀ l : List α, l.length ≤ (l.flatMap f).length := by
  intro l
  induction l with
  | nil => simp
  | cons a as ih =>
    rw [List.flatMap_cons, List.length_append, List.length_cons]
    have h1 : 1 ≤ (f a).length := List.length_pos.mpr (hf a)
    omega

/-- Every character encodes to at least one byte. -/
lemma utf8Bytes_ne_nil (c : Char) : utf8Bytes c ≠ [] := by
  simp only [utf8Bytes]
  split_ifs <;> simp

/-- Every byte percent-encodes to at least one character. -/
lemma quoteByte_ne_nil (b : Nat) : quoteByte b ≠ [] := by
  unfold quoteByte
  split_ifs <;> simp

set_option maxRecDepth 8192 in
/-- Claim C9: the share link is the fixed base URI `https://wa.me/?text=`
followed by the percent-encoding of the whole composed message; the
message embeds the owner name, the full raw text and the fixed footer
URL via the fixed template; and nothing is truncated — the encoded
message is at least as long as the composed message, whatever its size.
A concrete link is evaluated in full. -/
theorem whatsapp_share_spec (owner raw : String) :
    whatsapp_share (share_text owner raw) =
      "https://wa.me/?text=" ++ urlquote (share_text owner raw) ∧
    share_text owner raw =
      "\nNutriVision – Nutrition Report\n\nUser: " ++ owner ++ "\n\n" ++ raw ++
        "\n\nDownload full PDF:\n" ++ APP_URL ++ "\n" ∧
    (share_text owner raw).length ≤ (urlquote (share_text owner raw)).length ∧
    whatsapp_share (share_text "ann" "ok") =
      "https://wa.me/?text=%0ANutriVision%20%E2%80%93%20Nutrition%20Report%0A%0AUser%3A%20ann%0A%0Aok%0A%0ADownload%20full%20PDF%3A%0Ahttps%3A//nutri-app.onrender.com%0A" := by
  refine ⟨rfl, rfl, ?_, by decide⟩
  show (share_text owner raw).data.length ≤
    (((share_text owner raw).data.flatMap utf8Bytes).flatMap quoteByte).length
  calc (share_text owner raw).data.length
      ≤ ((share_text owner raw).data.flatMap utf8Bytes).length :=
        length_le_flatMap utf8Bytes utf8Bytes_ne_nil _
    _ ≤ (((share_text owner raw).data.flatMap utf8Bytes).flatMap quoteByte).length :=
        length_le_flatMap quoteByte quoteByte_ne_nil _
